import Mathlib

/-!
Shallow embedding of the GLB skeletal-animation and rendering pipeline of
`glb_renderer.go` (package main), together with theorems settling the frozen
claims about it.

Modelling conventions:
* `float32` values are modelled by `ℚ`; every arithmetic operation performed by
  the Go code is a field operation performed identically here.
* `mgl32.Mat4` is modelled by `Matrix (Fin 4) (Fin 4) ℚ`; `Mul4` is matrix
  multiplication.  `mgl32.Quat` is a scalar `W` plus a `Vec3` part `V`.
* Go slices become `List`s.  Go indexing that the code guards to be in bounds
  is rendered with `List.getD`; the default is never reached under the guards.
* `mgl32.QuatSlerp` is an external library routine built on transcendental
  float functions; it is threaded through the embedding as an explicit
  parameter `sl : SlerpFn`, so every structural theorem holds for the actual
  library routine.
* The Go recursion `getGlobalNodeTransform` has no termination guard, so it is
  embedded fuel-indexed: `none` means the recursion has not reached a root
  within the given depth, for any depth — i.e. the walk does not terminate.
* Wall-clock instants (`time.Time`, `time.Since`) are modelled as rational
  instants; `UpdateAnimation` receives the current instant `now` and computes
  `elapsed = now - animStartTime` exactly as the Go code does.
-/

/-- Component of `mgl32.Vec3`. -/
structure Vec3 where
  x : ℚ
  y : ℚ
  z : ℚ
deriving DecidableEq

/-- Model of `mgl32.Quat`: scalar part `W` and vector part `V`. -/
structure Quat where
  w : ℚ
  v : Vec3
deriving DecidableEq

/-- Model of `NodeTransform` from glb_renderer.go: current translation, rotation and
scale of one node. -/
structure NodeTransform where
  translation : Vec3
  rotation : Quat
  scale : Vec3
deriving DecidableEq

/-- Default used for guarded `List.getD` accesses (never reached under the
bounds checks the Go code performs). -/
def defaultTransform : NodeTransform :=
  { translation := ⟨0, 0, 0⟩, rotation := ⟨1, ⟨0, 0, 0⟩⟩, scale := ⟨1, 1, 1⟩ }

/-- Model of `mgl32.Mat4` (a 4×4 float matrix; `Mul4` is matrix product). -/
abbrev Mat4 := Matrix (Fin 4) (Fin 4) ℚ

/-- Model of `AnimationChannel` from glb_renderer.go: target node index, target path
("translation", "rotation" or "scale"), keyframe timestamps and the flat
value buffer. -/
structure AnimationChannel where
  nodeIndex : Int
  path : String
  timestamps : List ℚ
  values : List ℚ
deriving DecidableEq

/-- Model of `Animation` from glb_renderer.go. -/
structure Animation where
  name : String
  channels : List AnimationChannel
  duration : ℚ
deriving DecidableEq

/-- Model of `Skin` from glb_renderer.go: joint node indices plus one inverse-bind
matrix per joint. -/
structure Skin where
  joints : List Int
  inverseBindMatrices : List Mat4

/-- The mutable state of `GLBRenderer` that the claims are about.  The
`Animations` Go map is modelled as an association list (Go map iteration
order is unspecified; the list order stands in for it).  `lastUpload`,
`textureWidth`, `textureHeight` model the GL texture object owned by the
renderer (`TextureID`'s contents, `TextureWidth`, `TextureHeight`). -/
structure GLBRenderer where
  animations : List (String × Animation)
  nodeTransforms : List NodeTransform
  baseTransforms : List NodeTransform
  currentAnim : Option Animation
  animStartTime : ℚ
  animLoop : Bool
  nodeParents : List Int
  skins : List Skin
  boneMatrices : List Mat4
  textureWidth : Int
  textureHeight : Int
  lastUpload : Option (List Nat)

/-- A renderer with everything empty (as after `NewGLBRenderer`, before any
load). -/
def emptyRenderer : GLBRenderer :=
  { animations := [], nodeTransforms := [], baseTransforms := [],
    currentAnim := none, animStartTime := 0, animLoop := false,
    nodeParents := [], skins := [], boneMatrices := [],
    textureWidth := 0, textureHeight := 0, lastUpload := none }

/-- Type of the external `mgl32.QuatSlerp` routine. -/
def SlerpFn := Quat → Quat → ℚ → Quat

/-- Truncation toward zero, as Go's float-to-int truncation / `math.Trunc`. -/
def qtrunc (q : ℚ) : ℤ := q.num.tdiv (q.den : ℤ)

/-- Go's `math.Mod(x, y)`: `x - Trunc(x/y)*y` (result has the sign of `x`). -/
def qmod (x y : ℚ) : ℚ := x - (qtrunc (x / y) : ℚ) * y

/-- Slice `l[s : s+n]` of a Go slice. -/
def listSlice {α : Type} (l : List α) (s n : Nat) : List α := (l.drop s).take n

/-- The index computed by `sort.Search(count, func(i) { return Timestamps[i] > t })`
in `interpolateKeyframes`: the smallest index whose timestamp exceeds `t`
(`sort.Search` is a binary search; for the monotone predicate produced by an
increasing timestamp list it returns exactly this first index, modelled here
as a linear scan), or `count` when there is none. -/
def searchIdx (ts : List ℚ) (t : ℚ) : Nat :=
  match ts with
  | [] => 0
  | x :: xs => if t < x then 0 else searchIdx xs t + 1

/-- Model of `interpolateKeyframes` from glb_renderer.go, lines 640–723.  `sl` is the
`mgl32.QuatSlerp` routine.  Go slice expressions `Values[a:b]` are rendered
with `listSlice`; the direct indexings are all guarded in bounds by the
preceding length checks and rendered with `getD`. -/
def interpolateKeyframes (sl : SlerpFn) (c : AnimationChannel) (t : ℚ) : List ℚ :=
  if c.timestamps.length = 0 then []
  else
    let components := if c.path = "rotation" then 4 else 3
    let count := c.timestamps.length
    let idx := searchIdx c.timestamps t
    if idx = 0 then
      if components ≤ c.values.length then listSlice c.values 0 components else []
    else if idx = count then
      let startIdx := (count - 1) * components
      if startIdx + components ≤ c.values.length then listSlice c.values startIdx components
      else []
    else
      let keyIdx := idx - 1
      let t0 := c.timestamps.getD keyIdx 0
      let t1 := c.timestamps.getD (keyIdx + 1) 0
      let factor0 := (t - t0) / (t1 - t0)
      let factor1 := if factor0 < 0 then 0 else factor0
      let factor := if 1 < factor1 then 1 else factor1
      let startIdx0 := keyIdx * components
      let startIdx1 := (keyIdx + 1) * components
      if c.values.length < startIdx1 + components then
        listSlice c.values startIdx0 components
      else if c.path = "rotation" then
        let q0 : Quat := ⟨c.values.getD (startIdx0 + 3) 0,
          ⟨c.values.getD startIdx0 0, c.values.getD (startIdx0 + 1) 0,
            c.values.getD (startIdx0 + 2) 0⟩⟩
        let q1 : Quat := ⟨c.values.getD (startIdx1 + 3) 0,
          ⟨c.values.getD startIdx1 0, c.values.getD (startIdx1 + 1) 0,
            c.values.getD (startIdx1 + 2) 0⟩⟩
        let qr := sl q0 q1 factor
        [qr.v.x, qr.v.y, qr.v.z, qr.w]
      else
        (List.range components).map (fun i =>
          let v0 := c.values.getD (startIdx0 + i) 0
          let v1 := c.values.getD (startIdx1 + i) 0
          v0 + (v1 - v0) * factor)

/-- One iteration of the channel loop of `UpdateAnimation` (lines 611–636):
skip channels whose node index is out of range, interpolate, and write only
the targeted property when enough components were produced. -/
def applyChannel (sl : SlerpFn) (transforms : List NodeTransform)
    (c : AnimationChannel) (t : ℚ) : List NodeTransform :=
  if c.nodeIndex < 0 ∨ (transforms.length : Int) ≤ c.nodeIndex then transforms
  else
    let value := interpolateKeyframes sl c t
    let n := c.nodeIndex.toNat
    if c.path = "translation" then
      if 3 ≤ value.length then
        transforms.set n { transforms.getD n defaultTransform with
          translation := ⟨value.getD 0 0, value.getD 1 0, value.getD 2 0⟩ }
      else transforms
    else if c.path = "rotation" then
      if 4 ≤ value.length then
        transforms.set n { transforms.getD n defaultTransform with
          rotation := ⟨value.getD 3 0, ⟨value.getD 0 0, value.getD 1 0, value.getD 2 0⟩⟩ }
      else transforms
    else if c.path = "scale" then
      if 3 ≤ value.length then
        transforms.set n { transforms.getD n defaultTransform with
          scale := ⟨value.getD 0 0, value.getD 1 0, value.getD 2 0⟩ }
      else transforms
    else transforms

/-- The channel loop of `UpdateAnimation`. -/
def applyChannels (sl : SlerpFn) (transforms : List NodeTransform)
    (channels : List AnimationChannel) (t : ℚ) : List NodeTransform :=
  channels.foldl (fun acc c => applyChannel sl acc c t) transforms

/-- Model of `UpdateAnimation` from glb_renderer.go, lines 589–637, at instant `now`.
The Go reset loop copies `BaseTransforms[i]` into `NodeTransforms[i]` for
every index of `NodeTransforms`; the program keeps the two slices the same
length (both are `make`d with `len(doc.Nodes)`), so the reset is modelled as
replacing the list, and theorems carry the length equality where it matters. -/
def updateAnimation (sl : SlerpFn) (r : GLBRenderer) (now : ℚ) : GLBRenderer :=
  match r.currentAnim with
  | none => r
  | some anim =>
    let elapsed := now - r.animStartTime
    if r.animLoop = true ∧ 0 < anim.duration then
      { r with nodeTransforms :=
          applyChannels sl r.baseTransforms anim.channels (qmod elapsed anim.duration) }
    else if anim.duration < elapsed then
      { r with currentAnim := none }
    else
      { r with nodeTransforms := applyChannels sl r.baseTransforms anim.channels elapsed }

/-- Error value produced by `PlayAnimation` on a failed lookup: the Go code
formats the requested name and the list of available animation names into the
returned error. -/
inductive PlayError where
  | notFound (name : String) (available : List String)
deriving DecidableEq

/-- Lookup in the `Animations` map. -/
def lookupAnim (anims : List (String × Animation)) (name : String) : Option Animation :=
  (anims.find? (fun p => p.1 == name)).map (fun p => p.2)

/-- Model of `PlayAnimation` from glb_renderer.go, lines 561–577, at instant `now`:
returns the renderer state after the call together with the error, if any. -/
def playAnimation (r : GLBRenderer) (now : ℚ) (name : String) (loop : Bool) :
    GLBRenderer × Option PlayError :=
  match lookupAnim r.animations name with
  | none => (r, some (PlayError.notFound name (r.animations.map Prod.fst)))
  | some anim =>
    ({ r with currentAnim := some anim, animStartTime := now, animLoop := loop }, none)

/-- A slerp function used to instantiate witnesses: holds its first argument.
It satisfies the boundary property `sl a b 0 = a` required of slerp. -/
def slHold : SlerpFn := fun a _ _ => a

/-- A concrete clip of duration 1 with a single translation channel on node 0. -/
def clipA : Animation :=
  { name := "a", duration := 1,
    channels := [{ nodeIndex := 0, path := "translation",
                   timestamps := [0, 1], values := [0, 0, 0, 7, 0, 0] }] }

/-- A transform distinct from `defaultTransform` (translation 5 on x). -/
def movedTransform : NodeTransform :=
  { defaultTransform with translation := ⟨5, 0, 0⟩ }

/-- Renderer mid-playback of `clipA` (not looping), whose node 0 currently
holds `movedTransform` while its base transform is `defaultTransform`. -/
def r1 : GLBRenderer :=
  { emptyRenderer with
    animations := [("a", clipA)],
    nodeTransforms := [movedTransform],
    baseTransforms := [defaultTransform],
    currentAnim := some clipA,
    animStartTime := 0,
    animLoop := false }

/-- C1 counterexample: updating `r1` at instant 2 (elapsed 2 > duration 1,
loop=false) clears `CurrentAnim` but does NOT reset node 0 to its base
transform — the stop branch returns before the reset loop runs, so the claim
that every node's current transform equals its base transform is false. -/
theorem c1_claim_counterexample :
    (updateAnimation slHold r1 2).currentAnim = none ∧
      (updateAnimation slHold r1 2).nodeTransforms ≠ r1.baseTransforms := by
  have h : updateAnimation slHold r1 2 = { r1 with currentAnim := none } := by
    simp only [updateAnimation, r1, clipA, emptyRenderer]
    norm_num
  rw [h]
  exact ⟨rfl, by decide⟩

/-- C1 (amended): with `loop = false`, when `elapsed > duration` the update
transitions to Stopped (clears `CurrentAnim`) and returns immediately, but it
leaves every node's current transform exactly as it was on the previous tick —
the transforms are NOT reset to base. -/
theorem c1_amended_stop_without_reset (sl : SlerpFn) (r : GLBRenderer) (now : ℚ)
    (anim : Animation) (hanim : r.currentAnim = some anim)
    (hloop : r.animLoop = false)
    (helapsed : anim.duration < now - r.animStartTime) :
    updateAnimation sl r now = { r with currentAnim := none } := by
  unfold updateAnimation
  rw [hanim]
  simp only [hloop]
  rw [if_neg (by simp), if_pos helapsed]

/-- C1 witness: the amended theorem applied to the concrete renderer `r1` at
instant 2. -/
theorem c1_amended_witness :
    updateAnimation slHold r1 2 = { r1 with currentAnim := none } :=
  c1_amended_stop_without_reset slHold r1 2 clipA rfl rfl (by norm_num [clipA, r1])

/-- Renderer holding `clipA` under the name "walk", with node 0 moved away
from its base transform and no clip playing. -/
def r2 : GLBRenderer :=
  { emptyRenderer with
    animations := [("walk", clipA)],
    nodeTransforms := [movedTransform],
    baseTransforms := [defaultTransform] }

/-- C2 counterexample: a successful `play("walk", true)` enters Playing but
does NOT reset node 0's current transform to its base transform — the claim's
reset-on-hit is false (the reset only happens on the next update tick). -/
theorem c2_claim_counterexample :
    (playAnimation r2 0 "walk" true).1.currentAnim = some clipA ∧
      (playAnimation r2 0 "walk" true).1.nodeTransforms = r2.nodeTransforms ∧
      r2.nodeTransforms ≠ r2.baseTransforms :=
  ⟨rfl, rfl, by decide⟩

/-- C2 (amended): `play(name, loop)` looks the clip up by name; on a miss it
returns a not-found error listing the available clip names and leaves the
whole renderer state unchanged; on a hit it records the clip, the start
instant and the loop flag (entering Playing) without touching any node
transform — current transforms are reset to base only on the next update
tick. -/
theorem c2_amended_play (r : GLBRenderer) (now : ℚ) (name : String) (loop : Bool) :
    (lookupAnim r.animations name = none →
      playAnimation r now name loop =
        (r, some (PlayError.notFound name (r.animations.map Prod.fst)))) ∧
    (∀ anim : Animation, lookupAnim r.animations name = some anim →
      playAnimation r now name loop =
        ({ r with currentAnim := some anim, animStartTime := now, animLoop := loop },
          none)) := by
  constructor
  · intro h
    unfold playAnimation
    rw [h]
  · intro anim h
    unfold playAnimation
    rw [h]

/-- C2 witness: the amended theorem applied to `r2`, once on a missing name
(state unchanged, error lists the one available name "walk") and once on a
hit (Playing entered, transforms untouched). -/
theorem c2_amended_witness :
    playAnimation r2 0 "nope" true = (r2, some (PlayError.notFound "nope" ["walk"])) ∧
      playAnimation r2 5 "walk" true =
        ({ r2 with currentAnim := some clipA, animStartTime := 5, animLoop := true },
          none) :=
  ⟨(c2_amended_play r2 0 "nope" true).1 rfl,
   (c2_amended_play r2 5 "walk" true).2 clipA rfl⟩

/-- Guarded access after `List.set` at a different index. -/
theorem getD_set_ne {α : Type} (l : List α) (i j : Nat) (x : α) (d : α) (h : i ≠ j) :
    (l.set i x).getD j d = l.getD j d := by
  simp [List.getD_eq_getElem?_getD, List.getElem?_set_ne h]

/-- Guarded access after `List.set` at the same (in-range) index. -/
theorem getD_set_self {α : Type} (l : List α) (i : Nat) (x : α) (d : α) (h : i < l.length) :
    (l.set i x).getD i d = x := by
  simp [List.getD_eq_getElem?_getD, List.getElem?_set_self', h]

/-- A channel aimed at a different node leaves node `n`'s transform intact. -/
theorem applyChannel_other_node (sl : SlerpFn) (ts : List NodeTransform)
    (c : AnimationChannel) (t : ℚ) (n : Nat) (hne : c.nodeIndex ≠ (n : Int)) :
    (applyChannel sl ts c t).getD n defaultTransform = ts.getD n defaultTransform := by
  by_cases hg : (c.nodeIndex < 0 ∨ (ts.length : Int) ≤ c.nodeIndex)
  · simp only [applyChannel, if_pos hg]
  · have hton : c.nodeIndex.toNat ≠ n := by omega
    simp only [applyChannel, if_neg hg]
    split_ifs <;> first | rfl | rw [getD_set_ne _ _ _ _ _ hton]

/-- A channel whose path is not "translation" never changes any node's
translation. -/
theorem applyChannel_keeps_translation (sl : SlerpFn) (ts : List NodeTransform)
    (c : AnimationChannel) (t : ℚ) (n : Nat) (hp : c.path ≠ "translation") :
    ((applyChannel sl ts c t).getD n defaultTransform).translation
      = (ts.getD n defaultTransform).translation := by
  by_cases hg : (c.nodeIndex < 0 ∨ (ts.length : Int) ≤ c.nodeIndex)
  · simp only [applyChannel, if_pos hg]
  · simp only [applyChannel, if_neg hg]
    split_ifs
    all_goals try rfl
    all_goals try contradiction
    all_goals
      by_cases he : c.nodeIndex.toNat = n
    all_goals try rw [he, getD_set_self _ _ _ _ (by omega)]
    all_goals try rw [getD_set_ne _ _ _ _ _ he]

/-- A channel whose path is not "rotation" never changes any node's
rotation. -/
theorem applyChannel_keeps_rotation (sl : SlerpFn) (ts : List NodeTransform)
    (c : AnimationChannel) (t : ℚ) (n : Nat) (hp : c.path ≠ "rotation") :
    ((applyChannel sl ts c t).getD n defaultTransform).rotation
      = (ts.getD n defaultTransform).rotation := by
  by_cases hg : (c.nodeIndex < 0 ∨ (ts.length : Int) ≤ c.nodeIndex)
  · simp only [applyChannel, if_pos hg]
  · simp only [applyChannel, if_neg hg]
    split_ifs
    all_goals try rfl
    all_goals
      by_cases he : c.nodeIndex.toNat = n
    all_goals try rw [he, getD_set_self _ _ _ _ (by omega)]
    all_goals try rw [getD_set_ne _ _ _ _ _ he]

/-- A channel whose path is not "scale" never changes any node's scale. -/
theorem applyChannel_keeps_scale (sl : SlerpFn) (ts : List NodeTransform)
    (c : AnimationChannel) (t : ℚ) (n : Nat) (hp : c.path ≠ "scale") :
    ((applyChannel sl ts c t).getD n defaultTransform).scale
      = (ts.getD n defaultTransform).scale := by
  by_cases hg : (c.nodeIndex < 0 ∨ (ts.length : Int) ≤ c.nodeIndex)
  · simp only [applyChannel, if_pos hg]
  · simp only [applyChannel, if_neg hg]
    split_ifs
    all_goals try rfl
    all_goals
      by_cases he : c.nodeIndex.toNat = n
    all_goals try rw [he, getD_set_self _ _ _ _ (by omega)]
    all_goals try rw [getD_set_ne _ _ _ _ _ he]

/-- A channel that does not target (node `n`, translation) leaves node `n`'s
translation intact. -/
theorem applyChannel_untargeted_translation (sl : SlerpFn) (ts : List NodeTransform)
    (c : AnimationChannel) (t : ℚ) (n : Nat)
    (h : ¬(c.nodeIndex = (n : Int) ∧ c.path = "translation")) :
    ((applyChannel sl ts c t).getD n defaultTransform).translation
      = (ts.getD n defaultTransform).translation := by
  by_cases hp : c.path = "translation"
  · rw [applyChannel_other_node sl ts c t n (fun he => h ⟨he, hp⟩)]
  · exact applyChannel_keeps_translation sl ts c t n hp

/-- A channel that does not target (node `n`, rotation) leaves node `n`'s
rotation intact. -/
theorem applyChannel_untargeted_rotation (sl : SlerpFn) (ts : List NodeTransform)
    (c : AnimationChannel) (t : ℚ) (n : Nat)
    (h : ¬(c.nodeIndex = (n : Int) ∧ c.path = "rotation")) :
    ((applyChannel sl ts c t).getD n defaultTransform).rotation
      = (ts.getD n defaultTransform).rotation := by
  by_cases hp : c.path = "rotation"
  · rw [applyChannel_other_node sl ts c t n (fun he => h ⟨he, hp⟩)]
  · exact applyChannel_keeps_rotation sl ts c t n hp

/-- A channel that does not target (node `n`, scale) leaves node `n`'s scale
intact. -/
theorem applyChannel_untargeted_scale (sl : SlerpFn) (ts : List NodeTransform)
    (c : AnimationChannel) (t : ℚ) (n : Nat)
    (h : ¬(c.nodeIndex = (n : Int) ∧ c.path = "scale")) :
    ((applyChannel sl ts c t).getD n defaultTransform).scale
      = (ts.getD n defaultTransform).scale := by
  by_cases hp : c.path = "scale"
  · rw [applyChannel_other_node sl ts c t n (fun he => h ⟨he, hp⟩)]
  · exact applyChannel_keeps_scale sl ts c t n hp

/-- Channel-loop preservation of an untargeted translation. -/
theorem applyChannels_untargeted_translation (sl : SlerpFn) (t : ℚ)
    (channels : List AnimationChannel) : ∀ (ts : List NodeTransform) (n : Nat),
    (∀ c ∈ channels, ¬(c.nodeIndex = (n : Int) ∧ c.path = "translation")) →
    ((applyChannels sl ts channels t).getD n defaultTransform).translation
      = (ts.getD n defaultTransform).translation := by
  induction channels with
  | nil => intro ts n _; rfl
  | cons c cs ih =>
    intro ts n h
    show ((applyChannels sl (applyChannel sl ts c t) cs t).getD n defaultTransform).translation = _
    rw [ih _ n (fun d hd => h d (List.mem_cons_of_mem _ hd)),
      applyChannel_untargeted_translation sl ts c t n (h c (List.mem_cons_self _ _))]

/-- Channel-loop preservation of an untargeted rotation. -/
theorem applyChannels_untargeted_rotation (sl : SlerpFn) (t : ℚ)
    (channels : List AnimationChannel) : ∀ (ts : List NodeTransform) (n : Nat),
    (∀ c ∈ channels, ¬(c.nodeIndex = (n : Int) ∧ c.path = "rotation")) →
    ((applyChannels sl ts channels t).getD n defaultTransform).rotation
      = (ts.getD n defaultTransform).rotation := by
  induction channels with
  | nil => intro ts n _; rfl
  | cons c cs ih =>
    intro ts n h
    show ((applyChannels sl (applyChannel sl ts c t) cs t).getD n defaultTransform).rotation = _
    rw [ih _ n (fun d hd => h d (List.mem_cons_of_mem _ hd)),
      applyChannel_untargeted_rotation sl ts c t n (h c (List.mem_cons_self _ _))]

/-- Channel-loop preservation of an untargeted scale. -/
theorem applyChannels_untargeted_scale (sl : SlerpFn) (t : ℚ)
    (channels : List AnimationChannel) : ∀ (ts : List NodeTransform) (n : Nat),
    (∀ c ∈ channels, ¬(c.nodeIndex = (n : Int) ∧ c.path = "scale")) →
    ((applyChannels sl ts channels t).getD n defaultTransform).scale
      = (ts.getD n defaultTransform).scale := by
  induction channels with
  | nil => intro ts n _; rfl
  | cons c cs ih =>
    intro ts n h
    show ((applyChannels sl (applyChannel sl ts c t) cs t).getD n defaultTransform).scale = _
    rw [ih _ n (fun d hd => h d (List.mem_cons_of_mem _ hd)),
      applyChannel_untargeted_scale sl ts c t n (h c (List.mem_cons_self _ _))]

/-- C9: on an update tick that applies the playing clip (it loops, or the
elapsed time has not passed the duration), all node transforms are reset to
base before the channels are applied, and each channel writes only the one
property it targets; hence every node property not targeted by any channel of
the clip equals its base value after the tick. -/
theorem c9_untargeted_properties_equal_base (sl : SlerpFn) (r : GLBRenderer)
    (now : ℚ) (anim : Animation) (n : Nat)
    (hwf : r.nodeTransforms.length = r.baseTransforms.length)
    (hanim : r.currentAnim = some anim)
    (hrun : (r.animLoop = true ∧ 0 < anim.duration) ∨ now - r.animStartTime ≤ anim.duration) :
    ((∀ c ∈ anim.channels, ¬(c.nodeIndex = (n : Int) ∧ c.path = "translation")) →
      (((updateAnimation sl r now).nodeTransforms.getD n defaultTransform).translation
        = (r.baseTransforms.getD n defaultTransform).translation)) ∧
    ((∀ c ∈ anim.channels, ¬(c.nodeIndex = (n : Int) ∧ c.path = "rotation")) →
      (((updateAnimation sl r now).nodeTransforms.getD n defaultTransform).rotation
        = (r.baseTransforms.getD n defaultTransform).rotation)) ∧
    ((∀ c ∈ anim.channels, ¬(c.nodeIndex = (n : Int) ∧ c.path = "scale")) →
      (((updateAnimation sl r now).nodeTransforms.getD n defaultTransform).scale
        = (r.baseTransforms.getD n defaultTransform).scale)) := by
  obtain ⟨e, he⟩ : ∃ e, updateAnimation sl r now =
      { r with nodeTransforms := applyChannels sl r.baseTransforms anim.channels e } := by
    by_cases hl : (r.animLoop = true ∧ 0 < anim.duration)
    · refine ⟨qmod (now - r.animStartTime) anim.duration, ?_⟩
      unfold updateAnimation
      rw [hanim]
      simp only [if_pos hl]
    · have hle : ¬(anim.duration < now - r.animStartTime) :=
        not_lt.mpr (hrun.resolve_left hl)
      refine ⟨now - r.animStartTime, ?_⟩
      unfold updateAnimation
      rw [hanim]
      simp only [if_neg hl, if_neg hle]
  rw [he]
  exact ⟨fun h => applyChannels_untargeted_translation sl e anim.channels r.baseTransforms n h,
    fun h => applyChannels_untargeted_rotation sl e anim.channels r.baseTransforms n h,
    fun h => applyChannels_untargeted_scale sl e anim.channels r.baseTransforms n h⟩

/-- Renderer playing `clipA` in looping mode, node 0 away from base. -/
def r9 : GLBRenderer :=
  { emptyRenderer with
    nodeTransforms := [movedTransform],
    baseTransforms := [defaultTransform],
    currentAnim := some clipA,
    animStartTime := 0,
    animLoop := true }

/-- C9 witness: `clipA` targets only node 0's translation, so after an update
tick node 0's rotation and scale equal their base values. -/
theorem c9_witness :
    (((updateAnimation slHold r9 2).nodeTransforms.getD 0 defaultTransform).rotation
      = (r9.baseTransforms.getD 0 defaultTransform).rotation) ∧
    (((updateAnimation slHold r9 2).nodeTransforms.getD 0 defaultTransform).scale
      = (r9.baseTransforms.getD 0 defaultTransform).scale) :=
  ⟨(c9_untargeted_properties_equal_base slHold r9 2 clipA 0 rfl rfl
      (Or.inl ⟨rfl, by norm_num [clipA]⟩)).2.1 (by decide),
   (c9_untargeted_properties_equal_base slHold r9 2 clipA 0 rfl rfl
      (Or.inl ⟨rfl, by norm_num [clipA]⟩)).2.2 (by decide)⟩

/-- C10: a channel whose node index is negative or out of range is skipped
entirely (no transform modified, no out-of-range access), and a channel with
an empty timestamp list contributes no value and modifies nothing. -/
theorem c10_invalid_channels_skipped (sl : SlerpFn) (ts : List NodeTransform)
    (c : AnimationChannel) (t : ℚ) :
    ((c.nodeIndex < 0 ∨ (ts.length : Int) ≤ c.nodeIndex) → applyChannel sl ts c t = ts) ∧
    (c.timestamps = [] → interpolateKeyframes sl c t = []) ∧
    (c.timestamps = [] → applyChannel sl ts c t = ts) := by
  have hempty : c.timestamps = [] → interpolateKeyframes sl c t = [] := by
    intro h
    unfold interpolateKeyframes
    rw [if_pos (by rw [h]; rfl)]
  refine ⟨fun h => ?_, hempty, fun h => ?_⟩
  · unfold applyChannel
    rw [if_pos h]
  · by_cases hg : (c.nodeIndex < 0 ∨ (ts.length : Int) ≤ c.nodeIndex)
    · unfold applyChannel
      rw [if_pos hg]
    · simp only [applyChannel, if_neg hg, hempty h, List.length_nil]
      split_ifs <;> first | rfl | omega

/-- Channel with an out-of-range node index. -/
def chOut : AnimationChannel :=
  { nodeIndex := 5, path := "translation", timestamps := [0], values := [1, 2, 3] }

/-- Channel with an empty timestamp list. -/
def chEmpty : AnimationChannel :=
  { nodeIndex := 0, path := "translation", timestamps := [], values := [] }

/-- C10 witness: the theorem applied to a concrete out-of-range channel and a
concrete empty-timestamps channel over a one-node transform list. -/
theorem c10_witness :
    applyChannel slHold [defaultTransform] chOut 0 = [defaultTransform] ∧
      interpolateKeyframes slHold chEmpty 0 = [] ∧
      applyChannel slHold [defaultTransform] chEmpty 0 = [defaultTransform] :=
  ⟨(c10_invalid_channels_skipped slHold [defaultTransform] chOut 0).1 (by decide),
   (c10_invalid_channels_skipped slHold [defaultTransform] chEmpty 0).2.1 rfl,
   (c10_invalid_channels_skipped slHold [defaultTransform] chEmpty 0).2.2 rfl⟩

/-- The search index never exceeds the timestamp count. -/
theorem searchIdx_le_length (t : ℚ) (ts : List ℚ) : searchIdx ts t ≤ ts.length := by
  induction ts with
  | nil => simp [searchIdx]
  | cons x xs ih =>
    unfold searchIdx
    split_ifs
    · omega
    · simp only [List.length_cons]
      omega

/-- Every timestamp strictly before the search index is at most `t`. -/
theorem getD_le_of_lt_searchIdx (t : ℚ) (ts : List ℚ) :
    ∀ i : Nat, i < searchIdx ts t → ts.getD i 0 ≤ t := by
  induction ts with
  | nil => intro i h; simp [searchIdx] at h
  | cons x xs ih =>
    intro i h
    unfold searchIdx at h
    split_ifs at h with hx
    · omega
    · cases i with
      | zero => exact le_of_not_lt hx
      | succ j => exact ih j (by omega)

/-- The timestamp at the search index (when it exists) exceeds `t`. -/
theorem lt_getD_searchIdx (t : ℚ) (ts : List ℚ) :
    searchIdx ts t < ts.length → t < ts.getD (searchIdx ts t) 0 := by
  induction ts with
  | nil => intro h; simp [searchIdx] at h
  | cons x xs ih =>
    intro h
    by_cases hx : t < x
    · simp [searchIdx, hx]
    · have hs : searchIdx (x :: xs) t = searchIdx xs t + 1 := by simp [searchIdx, hx]
      rw [hs] at h ⊢
      exact ih (by simpa using h)

/-- When every timestamp is at most `t`, the search runs off the end. -/
theorem searchIdx_eq_length (t : ℚ) (ts : List ℚ) (h : ∀ x ∈ ts, x ≤ t) :
    searchIdx ts t = ts.length := by
  induction ts with
  | nil => rfl
  | cons x xs ih =>
    have hx : ¬ t < x := not_lt.mpr (h x (List.mem_cons_self _ _))
    simp [searchIdx, hx, ih (fun y hy => h y (List.mem_cons_of_mem _ hy))]

/-- When the head timestamp already exceeds `t`, the search index is 0. -/
theorem searchIdx_eq_zero (t : ℚ) (ts : List ℚ) (hne : ts ≠ [])
    (h : t < ts.getD 0 0) : searchIdx ts t = 0 := by
  cases ts with
  | nil => exact absurd rfl hne
  | cons x xs => simp [searchIdx, show t < x from h]

/-- When the head timestamp does not exceed `t`, the search index is positive. -/
theorem searchIdx_pos (t : ℚ) (ts : List ℚ) (hne : ts ≠ [])
    (h : ¬ t < ts.getD 0 0) : 0 < searchIdx ts t := by
  cases ts with
  | nil => exact absurd rfl hne
  | cons x xs => simp [searchIdx, show ¬ t < x from h]

/-- Strictly increasing timestamps are pointwise strictly ordered. -/
theorem sorted_getD_lt (ts : List ℚ) (hs : ts.Pairwise (· < ·)) (i j : Nat)
    (hij : i < j) (hj : j < ts.length) : ts.getD i 0 < ts.getD j 0 := by
  rw [List.pairwise_iff_getElem] at hs
  have h := hs i j (hij.trans hj) hj hij
  simp [List.getD_eq_getElem?_getD, List.getElem?_eq_getElem, hij.trans hj, hj, h]

/-- In a strictly increasing list every entry is at most the last entry. -/
theorem sorted_getD_le_last (ts : List ℚ) (hs : ts.Pairwise (· < ·)) (i : Nat)
    (hi : i < ts.length) : ts.getD i 0 ≤ ts.getD (ts.length - 1) 0 := by
  rcases Nat.lt_or_ge i (ts.length - 1) with h | h
  · exact le_of_lt (sorted_getD_lt ts hs i (ts.length - 1) h (by omega))
  · have he : i = ts.length - 1 := by omega
    rw [he]

/-- A Go slice `l[s : s+n]` enumerated by guarded element access. -/
theorem slice_eq_range_map {α : Type} (l : List α) (d : α) (s n : Nat)
    (h : s + n ≤ l.length) :
    listSlice l s n = (List.range n).map (fun i => l.getD (s + i) d) := by
  apply List.ext_getElem
  · simp [listSlice]
    omega
  · intro i h1 h2
    have hi : i < n := by simpa using h2
    have hil : s + i < l.length := by omega
    simp [listSlice, List.getElem_take, List.getElem_drop,
      List.getD_eq_getElem?_getD, List.getElem?_eq_getElem, hil]

/-- The Go clamp sequence is the clamp into [0, 1]. -/
theorem clamp_eq (f0 : ℚ) :
    (if 1 < (if f0 < 0 then 0 else f0) then 1 else if f0 < 0 then 0 else f0)
      = min 1 (max 0 f0) := by
  rw [min_def, max_def]
  split_ifs <;> linarith

/-- Keyframe lookup before the first keyframe: the first sample is returned. -/
theorem interp_searchIdx_zero (sl : SlerpFn) (c : AnimationChannel) (t : ℚ)
    (hne : c.timestamps ≠ []) (h : searchIdx c.timestamps t = 0)
    (hlen : (if c.path = "rotation" then 4 else 3) ≤ c.values.length) :
    interpolateKeyframes sl c t
      = listSlice c.values 0 (if c.path = "rotation" then 4 else 3) := by
  have h0 : ¬ c.timestamps.length = 0 := by
    simpa [List.length_eq_zero] using hne
  simp [interpolateKeyframes, h, h0, hlen]

/-- Keyframe lookup at or after the last keyframe: the last sample is
returned. -/
theorem interp_searchIdx_length (sl : SlerpFn) (c : AnimationChannel) (t : ℚ)
    (hne : c.timestamps ≠ [])
    (h : searchIdx c.timestamps t = c.timestamps.length)
    (hlen : (c.timestamps.length - 1) * (if c.path = "rotation" then 4 else 3)
        + (if c.path = "rotation" then 4 else 3) ≤ c.values.length) :
    interpolateKeyframes sl c t
      = listSlice c.values
          ((c.timestamps.length - 1) * (if c.path = "rotation" then 4 else 3))
          (if c.path = "rotation" then 4 else 3) := by
  have h0 : ¬ c.timestamps.length = 0 := by
    simpa [List.length_eq_zero] using hne
  simp [interpolateKeyframes, h, h0, hlen]
  intro hcon
  exfalso
  split_ifs at hcon hlen <;> omega

/-- A slice of four starting at 0, elementwise. -/
theorem slice_zero_four (l : List ℚ) (h : 4 ≤ l.length) :
    listSlice l 0 4 = [l.getD 0 0, l.getD 1 0, l.getD 2 0, l.getD 3 0] := by
  rw [slice_eq_range_map l 0 0 4 (by omega)]
  rfl

/-- A slice of three starting at 0, elementwise. -/
theorem slice_zero_three (l : List ℚ) (h : 3 ≤ l.length) :
    listSlice l 0 3 = [l.getD 0 0, l.getD 1 0, l.getD 2 0] := by
  rw [slice_eq_range_map l 0 0 3 (by omega)]
  rfl

/-- Successor-index form of the search: used to place `t` between keyframes. -/
theorem searchIdx_eq_one (t : ℚ) (ts : List ℚ) (h1 : 1 < ts.length)
    (hx : ¬ t < ts.getD 0 0) (hy : t < ts.getD 1 0) : searchIdx ts t = 1 := by
  cases ts with
  | nil => simp at h1
  | cons x xs =>
    cases xs with
    | nil => simp at h1
    | cons y ys =>
      have hx' : ¬ t < x := hx
      have hy' : t < y := hy
      simp [searchIdx, hx', hy']

/-- Keyframe lookup strictly between two keyframes: evaluates the bracketing
blend of `interpolateKeyframes` (the Go interior path, with its two-step
clamp). -/
theorem interp_interior (sl : SlerpFn) (c : AnimationChannel) (t : ℚ)
    (hpos : 0 < searchIdx c.timestamps t)
    (hlt : searchIdx c.timestamps t < c.timestamps.length)
    (hv : c.values.length
        = c.timestamps.length * (if c.path = "rotation" then 4 else 3)) :
    interpolateKeyframes sl c t =
      (let comp := if c.path = "rotation" then 4 else 3
       let k := searchIdx c.timestamps t - 1
       let t0 := c.timestamps.getD k 0
       let t1 := c.timestamps.getD (k + 1) 0
       let factor0 := (t - t0) / (t1 - t0)
       let factor := if 1 < (if factor0 < 0 then 0 else factor0) then 1
         else if factor0 < 0 then 0 else factor0
       if c.path = "rotation" then
         let q0 : Quat := ⟨c.values.getD (k * comp + 3) 0,
           ⟨c.values.getD (k * comp) 0, c.values.getD (k * comp + 1) 0,
             c.values.getD (k * comp + 2) 0⟩⟩
         let q1 : Quat := ⟨c.values.getD ((k + 1) * comp + 3) 0,
           ⟨c.values.getD ((k + 1) * comp) 0, c.values.getD ((k + 1) * comp + 1) 0,
             c.values.getD ((k + 1) * comp + 2) 0⟩⟩
         [(sl q0 q1 factor).v.x, (sl q0 q1 factor).v.y, (sl q0 q1 factor).v.z,
           (sl q0 q1 factor).w]
       else
         (List.range comp).map (fun i =>
           c.values.getD (k * comp + i) 0
             + (c.values.getD ((k + 1) * comp + i) 0 - c.values.getD (k * comp + i) 0)
               * factor)) := by
  have h0 : ¬ c.timestamps.length = 0 := by omega
  have hguard : ¬ (c.values.length
      < (searchIdx c.timestamps t - 1 + 1) * (if c.path = "rotation" then 4 else 3)
        + (if c.path = "rotation" then 4 else 3)) := by
    have hk1 : searchIdx c.timestamps t - 1 + 1 = searchIdx c.timestamps t := by omega
    rw [hk1, hv]
    refine not_lt.mpr ?_
    have hstep : searchIdx c.timestamps t * (if c.path = "rotation" then 4 else 3)
        + (if c.path = "rotation" then 4 else 3)
        = (searchIdx c.timestamps t + 1) * (if c.path = "rotation" then 4 else 3) := by
      ring
    rw [hstep]
    exact Nat.mul_le_mul_right _ hlt
  simp only [interpolateKeyframes]
  rw [if_neg h0, if_neg (by omega : ¬ searchIdx c.timestamps t = 0),
    if_neg (by omega : ¬ searchIdx c.timestamps t = c.timestamps.length),
    if_neg hguard]

/-- C8: for a channel with a non-empty strictly increasing timestamp list and
well-formed values (one sample per keyframe), sampling at `t`: at or before
the first keyframe the first sample is returned unchanged; at or after the
last keyframe the last sample is returned unchanged; strictly in between, the
bracketing pair located by the search is blended with factor
`clamp((t-t0)/(t1-t0), 0, 1)` — componentwise linear blend for
translation/scale, the slerp routine for rotation.  The hypothesis `hsl0` is
the boundary property of `mgl32.QuatSlerp` (at amount 0 it returns its first
argument; exact for the unit quaternions of the data model). -/
theorem c8_keyframe_interpolation (sl : SlerpFn) (c : AnimationChannel) (t : ℚ)
    (hne : c.timestamps ≠ [])
    (hsorted : c.timestamps.Pairwise (· < ·))
    (hv : c.values.length
        = c.timestamps.length * (if c.path = "rotation" then 4 else 3))
    (hsl0 : ∀ a b : Quat, sl a b 0 = a) :
    (t ≤ c.timestamps.getD 0 0 →
      interpolateKeyframes sl c t
        = listSlice c.values 0 (if c.path = "rotation" then 4 else 3)) ∧
    (c.timestamps.getD (c.timestamps.length - 1) 0 ≤ t →
      interpolateKeyframes sl c t
        = listSlice c.values
            ((c.timestamps.length - 1) * (if c.path = "rotation" then 4 else 3))
            (if c.path = "rotation" then 4 else 3)) ∧
    (c.timestamps.getD 0 0 ≤ t → t < c.timestamps.getD (c.timestamps.length - 1) 0 →
      ∃ k, k + 1 < c.timestamps.length ∧
        c.timestamps.getD k 0 ≤ t ∧ t < c.timestamps.getD (k + 1) 0 ∧
        interpolateKeyframes sl c t
          = (let comp := if c.path = "rotation" then 4 else 3
             let f := min 1 (max 0 ((t - c.timestamps.getD k 0)
               / (c.timestamps.getD (k + 1) 0 - c.timestamps.getD k 0)))
             if c.path = "rotation" then
               let q0 : Quat := ⟨c.values.getD (k * comp + 3) 0,
                 ⟨c.values.getD (k * comp) 0, c.values.getD (k * comp + 1) 0,
                   c.values.getD (k * comp + 2) 0⟩⟩
               let q1 : Quat := ⟨c.values.getD ((k + 1) * comp + 3) 0,
                 ⟨c.values.getD ((k + 1) * comp) 0, c.values.getD ((k + 1) * comp + 1) 0,
                   c.values.getD ((k + 1) * comp + 2) 0⟩⟩
               [(sl q0 q1 f).v.x, (sl q0 q1 f).v.y, (sl q0 q1 f).v.z, (sl q0 q1 f).w]
             else
               (List.range comp).map (fun i =>
                 c.values.getD (k * comp + i) 0
                   + (c.values.getD ((k + 1) * comp + i) 0 - c.values.getD (k * comp + i) 0)
                     * f))) := by
  have h0 : ¬ c.timestamps.length = 0 := by
    simpa [List.length_eq_zero] using hne
  have hcpos : 0 < c.timestamps.length := by omega
  have hcomp_le : (if c.path = "rotation" then 4 else 3) ≤ c.values.length := by
    rw [hv]
    have := Nat.mul_le_mul_right (k := if c.path = "rotation" then 4 else 3) hcpos
    simpa using this
  refine ⟨?_, ?_, ?_⟩
  · -- at or before the first keyframe
    intro ht
    rcases lt_or_eq_of_le ht with hlt | heq
    · exact interp_searchIdx_zero sl c t hne (searchIdx_eq_zero t _ hne hlt) hcomp_le
    · have hnotlt : ¬ t < c.timestamps.getD 0 0 := by rw [heq]; exact lt_irrefl _
      by_cases h1 : c.timestamps.length = 1
      · -- a single keyframe: the off-the-end branch returns the (first) sample
        have hidx : searchIdx c.timestamps t = c.timestamps.length := by
          apply searchIdx_eq_length
          intro x hx
          obtain ⟨i, hi, hxe⟩ := List.getElem_of_mem hx
          have hi0 : i = 0 := by omega
          subst hi0
          have : x = c.timestamps.getD 0 0 := by
            rw [← hxe]
            simp [List.getD_eq_getElem?_getD, List.getElem?_eq_getElem hi]
          rw [this, ← heq]
        have hres := interp_searchIdx_length sl c t hne hidx (by
          rw [hv, h1]; simp)
        rw [hres, h1]
        simp
      · -- at the first of at least two keyframes: interior blend with factor 0
        have h2 : 1 < c.timestamps.length := by omega
        have hlt01 : c.timestamps.getD 0 0 < c.timestamps.getD 1 0 :=
          sorted_getD_lt _ hsorted 0 1 (by omega) h2
        have hidx : searchIdx c.timestamps t = 1 :=
          searchIdx_eq_one t _ h2 hnotlt (heq ▸ hlt01)
        have hres := interp_interior sl c t (by omega) (by omega) hv
        rw [hres]
        simp only [hidx]
        have hfac : (t - c.timestamps.getD (1 - 1) 0)
            / (c.timestamps.getD (1 - 1 + 1) 0 - c.timestamps.getD (1 - 1) 0) = 0 := by
          have hnum : t - c.timestamps.getD (1 - 1) 0 = 0 := by
            rw [show (1 : Nat) - 1 = 0 from rfl, heq]
            ring
          rw [hnum, zero_div]
        rw [hfac]
        norm_num
        by_cases hrot : c.path = "rotation"
        · rw [if_pos hrot, hsl0]
          have h4 : 4 ≤ c.values.length := by
            rw [hv]
            rw [show (if c.path = "rotation" then 4 else 3) = 4 from by rw [if_pos hrot]]
            omega
          rw [show (if c.path = "rotation" then 4 else 3) = 4 from by rw [if_pos hrot],
            slice_zero_four c.values h4]
          simp [List.getD_eq_getElem?_getD]
        · rw [if_neg hrot]
          have h3 : 3 ≤ c.values.length := by
            have h33 : (if c.path = "rotation" then 4 else 3) = 3 := by
              rw [if_neg hrot]
            omega
          rw [show (if c.path = "rotation" then 4 else 3) = 3 from by rw [if_neg hrot],
            slice_zero_three c.values h3]
          simp [List.getD_eq_getElem?_getD, List.range_succ]
  · -- at or after the last keyframe
    intro ht
    have hall : ∀ x ∈ c.timestamps, x ≤ t := by
      intro x hx
      obtain ⟨i, hi, hxe⟩ := List.getElem_of_mem hx
      have hgd : c.timestamps.getD i 0 = x := by
        simp [List.getD_eq_getElem?_getD, List.getElem?_eq_getElem hi, hxe]
      calc x = c.timestamps.getD i 0 := hgd.symm
        _ ≤ c.timestamps.getD (c.timestamps.length - 1) 0 :=
          sorted_getD_le_last _ hsorted i hi
        _ ≤ t := ht
    have hg : (c.timestamps.length - 1) * (if c.path = "rotation" then 4 else 3)
        + (if c.path = "rotation" then 4 else 3)
        = c.timestamps.length * (if c.path = "rotation" then 4 else 3) := by
      have hs : c.timestamps.length - 1 + 1 = c.timestamps.length := by omega
      calc (c.timestamps.length - 1) * (if c.path = "rotation" then 4 else 3)
            + (if c.path = "rotation" then 4 else 3)
          = (c.timestamps.length - 1 + 1) * (if c.path = "rotation" then 4 else 3) := by
            ring
        _ = c.timestamps.length * (if c.path = "rotation" then 4 else 3) := by rw [hs]
    exact interp_searchIdx_length sl c t hne (searchIdx_eq_length t _ hall)
      (by rw [hv]; exact le_of_eq hg)
  · -- strictly between the first and the last keyframe
    intro ht0 htl
    have hnotlt : ¬ t < c.timestamps.getD 0 0 := not_lt.mpr ht0
    have hpos : 0 < searchIdx c.timestamps t := searchIdx_pos t _ hne hnotlt
    have hle : searchIdx c.timestamps t ≤ c.timestamps.length :=
      searchIdx_le_length t _
    have hltc : searchIdx c.timestamps t < c.timestamps.length := by
      rcases Nat.lt_or_ge (searchIdx c.timestamps t) c.timestamps.length with h | h
      · exact h
      · exfalso
        have hlast : c.timestamps.getD (c.timestamps.length - 1) 0 ≤ t :=
          getD_le_of_lt_searchIdx t _ _ (by omega)
        linarith
    refine ⟨searchIdx c.timestamps t - 1, by omega,
      getD_le_of_lt_searchIdx t _ _ (by omega), ?_, ?_⟩
    · have hk1 : searchIdx c.timestamps t - 1 + 1 = searchIdx c.timestamps t := by
        omega
      rw [hk1]
      exact lt_getD_searchIdx t _ hltc
    · rw [interp_interior sl c t hpos hltc hv]
      simp only [clamp_eq]

/-- Concrete translation channel with two keyframes, used for the C8 witness. -/
def chLerp : AnimationChannel :=
  { nodeIndex := 0, path := "translation", timestamps := [0, 1],
    values := [0, 0, 0, 6, 0, 0] }

/-- C8 witness: the interpolation theorem applied to the concrete channel
`chLerp` sampled before its first keyframe. -/
theorem c8_witness :
    interpolateKeyframes slHold chLerp (-1)
      = listSlice chLerp.values 0 (if chLerp.path = "rotation" then 4 else 3) :=
  (c8_keyframe_interpolation slHold chLerp (-1) (by decide)
    (by norm_num [chLerp, List.pairwise_cons]) (by decide) (fun a b => rfl)).1
    (by norm_num [chLerp])

/-- Model of `mgl32.Translate3D`: homogeneous translation matrix. -/
def translate3D (tx ty tz : ℚ) : Mat4 :=
  !![1, 0, 0, tx; 0, 1, 0, ty; 0, 0, 1, tz; 0, 0, 0, 1]

/-- Model of `mgl32.Quat.Mat4`: the rotation matrix of a quaternion.  The Go source
lists the 16 entries column-major; they are shown here row-major. -/
def quatMat4 (q : Quat) : Mat4 :=
  let w := q.w
  let x := q.v.x
  let y := q.v.y
  let z := q.v.z
  !![1 - 2*y*y - 2*z*z, 2*x*y - 2*w*z, 2*x*z + 2*w*y, 0;
     2*x*y + 2*w*z, 1 - 2*x*x - 2*z*z, 2*y*z - 2*w*x, 0;
     2*x*z - 2*w*y, 2*y*z + 2*w*x, 1 - 2*x*x - 2*y*y, 0;
     0, 0, 0, 1]

/-- Model of `mgl32.Scale3D`: diagonal scale matrix. -/
def scale3D (sx sy sz : ℚ) : Mat4 :=
  !![sx, 0, 0, 0; 0, sy, 0, 0; 0, 0, sz, 0; 0, 0, 0, 1]

/-- Model of `getNodeTransformMatrix` from glb_renderer.go, lines 726–737: identity for
an out-of-range index, else `translation.Mul4(rotation).Mul4(scale)` — the
fixed T·R·S composition. -/
def getNodeTransformMatrix (r : GLBRenderer) (nodeIndex : Int) : Mat4 :=
  if nodeIndex < 0 ∨ (r.nodeTransforms.length : Int) ≤ nodeIndex then 1
  else
    let t := r.nodeTransforms.getD nodeIndex.toNat defaultTransform
    translate3D t.translation.x t.translation.y t.translation.z
      * quatMat4 t.rotation
      * scale3D t.scale.x t.scale.y t.scale.z

/-- Model of `getGlobalNodeTransform` from glb_renderer.go, lines 787–802, indexed by
recursion depth: the Go function recurses on the parent with no termination
guard, so `none` means the walk has not reached a root within `fuel` steps —
holding for every `fuel`, it means the Go recursion does not terminate.  The
program keeps `NodeParents` and `NodeTransforms` the same length; the guarded
parent access uses −1 (no parent) as the never-reached default. -/
def getGlobalNodeTransformF (r : GLBRenderer) : Nat → Int → Option Mat4
  | 0, _ => none
  | fuel + 1, nodeIndex =>
    if nodeIndex < 0 ∨ (r.nodeTransforms.length : Int) ≤ nodeIndex then some 1
    else
      let localM := getNodeTransformMatrix r nodeIndex
      let parentIdx := r.nodeParents.getD nodeIndex.toNat (-1)
      if 0 ≤ parentIdx then
        (getGlobalNodeTransformF r fuel parentIdx).map (fun g => g * localM)
      else some localM

/-- The parent chain of a node, root first, tracked the same way the Go
recursion walks it (same bounds checks, same parent lookup); `none` when the
walk does not reach a root within `fuel` steps.  An out-of-range index
contributes an empty chain, matching the identity matrix the walk returns
there. -/
def chainToRoot (r : GLBRenderer) : Nat → Int → Option (List Int)
  | 0, _ => none
  | fuel + 1, nodeIndex =>
    if nodeIndex < 0 ∨ (r.nodeTransforms.length : Int) ≤ nodeIndex then some []
    else
      let parentIdx := r.nodeParents.getD nodeIndex.toNat (-1)
      if 0 ≤ parentIdx then
        (chainToRoot r fuel parentIdx).map (fun l => l ++ [nodeIndex])
      else some [nodeIndex]

/-- C6: for every node whose parent chain reaches a root (acyclic chain of
length d, computed by `chainToRoot`), the global transform is exactly the
left-to-right matrix product of the d+1 local T·R·S transforms from the root
ancestor down to the node. -/
theorem c6_global_transform_is_chain_product (r : GLBRenderer) (fuel : Nat) :
    ∀ (i : Int) (l : List Int), chainToRoot r fuel i = some l →
      getGlobalNodeTransformF r fuel i
        = some ((l.map (getNodeTransformMatrix r)).foldl (· * ·) 1) := by
  induction fuel with
  | zero => intro i l h; simp [chainToRoot] at h
  | succ fuel ih =>
    intro i l h
    by_cases hg : (i < 0 ∨ (r.nodeTransforms.length : Int) ≤ i)
    · simp only [chainToRoot, if_pos hg, Option.some.injEq] at h
      subst h
      simp [getGlobalNodeTransformF, if_pos hg]
    · simp only [chainToRoot, if_neg hg] at h
      simp only [getGlobalNodeTransformF, if_neg hg]
      by_cases hp : (0 ≤ r.nodeParents.getD i.toNat (-1))
      · rw [if_pos hp] at h ⊢
        obtain ⟨l', hl', rfl⟩ :
            ∃ l', chainToRoot r fuel (r.nodeParents.getD i.toNat (-1)) = some l'
              ∧ l = l' ++ [i] := by
          cases hc : chainToRoot r fuel (r.nodeParents.getD i.toNat (-1)) with
          | none => rw [hc] at h; simp at h
          | some l' =>
            rw [hc] at h
            simp only [Option.map_some', Option.some.injEq] at h
            exact ⟨l', rfl, h.symm⟩
        rw [ih _ _ hl']
        simp [List.foldl_append]
      · rw [if_neg hp] at h ⊢
        simp only [Option.some.injEq] at h
        subst h
        simp

/-- Two-node renderer: node 1 is a child of root node 0. -/
def r6 : GLBRenderer :=
  { emptyRenderer with
    nodeTransforms := [defaultTransform, movedTransform],
    baseTransforms := [defaultTransform, movedTransform],
    nodeParents := [-1, 0] }

/-- C6 witness: in `r6` the chain of node 1 is [0, 1] and its global transform
is the product of the two local transforms from the root down. -/
theorem c6_witness :
    getGlobalNodeTransformF r6 5 1
      = some ((([0, 1] : List Int).map (getNodeTransformMatrix r6)).foldl (· * ·) 1) :=
  c6_global_transform_is_chain_product r6 5 1 [0, 1] (by decide)

/-- The joint loop of `computeBoneMatrices` (lines 817–823): writes slot `i`
of the accumulated bone-matrix slice for each joint in turn; `none` when a
joint's global-transform walk does not terminate within `fuel`. -/
def boneLoop (r : GLBRenderer) (fuel : Nat) (ibm : List Mat4) :
    List Int → Nat → List Mat4 → Option (List Mat4)
  | [], _, acc => some acc
  | j :: rest, i, acc =>
    match getGlobalNodeTransformF r fuel j with
    | none => none
    | some g => boneLoop r fuel ibm rest (i + 1) (acc.set i (g * ibm.getD i 1))

/-- Model of `computeBoneMatrices` from glb_renderer.go, lines 805–824: out-of-range
skin index leaves the bone matrices untouched; a too-short slice is
reallocated (`make` zero-fills, and the loop then overwrites every joint
slot); then each joint `i` receives `globalJointTransform * inverseBindMatrix`. -/
def computeBoneMatricesF (r : GLBRenderer) (fuel : Nat) (skinIndex : Int) :
    Option (List Mat4) :=
  if skinIndex < 0 ∨ (r.skins.length : Int) ≤ skinIndex then some r.boneMatrices
  else
    let skin := r.skins.getD skinIndex.toNat ⟨[], []⟩
    let start := if r.boneMatrices.length < skin.joints.length
      then List.replicate skin.joints.length (0 : Mat4)
      else r.boneMatrices
    boneLoop r fuel skin.inverseBindMatrices skin.joints 0 start

/-- Loop invariant of `boneLoop`: slots below the cursor are untouched and
each processed joint slot holds `global * inverseBind`. -/
theorem boneLoop_spec (r : GLBRenderer) (fuel : Nat) (ibm : List Mat4) :
    ∀ (js : List Int) (i : Nat) (acc : List Mat4),
    (∀ j ∈ js, (getGlobalNodeTransformF r fuel j).isSome) →
    i + js.length ≤ acc.length →
    ∃ out, boneLoop r fuel ibm js i acc = some out ∧
      out.length = acc.length ∧
      (∀ m, m < i → out.getD m 1 = acc.getD m 1) ∧
      (∀ n, n < js.length →
        out.getD (i + n) 1
          = (getGlobalNodeTransformF r fuel (js.getD n 0)).getD 1
            * ibm.getD (i + n) 1) := by
  intro js
  induction js with
  | nil =>
    intro i acc _ _
    exact ⟨acc, rfl, rfl, fun m _ => rfl, fun n hn => absurd hn (by simp)⟩
  | cons j rest ih =>
    intro i acc hg hlen
    have hj : (getGlobalNodeTransformF r fuel j).isSome :=
      hg j (List.mem_cons_self _ _)
    obtain ⟨g, hgj⟩ := Option.isSome_iff_exists.mp hj
    have hrest : ∀ j' ∈ rest, (getGlobalNodeTransformF r fuel j').isSome :=
      fun j' hj' => hg j' (List.mem_cons_of_mem _ hj')
    have hlen0 : i + (rest.length + 1) ≤ acc.length := by simpa using hlen
    have hlen' : (i + 1) + rest.length ≤ (acc.set i (g * ibm.getD i 1)).length := by
      rw [List.length_set]
      omega
    obtain ⟨out, hout, houtlen, hbelow, habove⟩ := ih (i + 1) _ hrest hlen'
    refine ⟨out, ?_, ?_, ?_, ?_⟩
    · show (match getGlobalNodeTransformF r fuel j with
        | none => none
        | some g => boneLoop r fuel ibm rest (i + 1) (acc.set i (g * ibm.getD i 1)))
          = some out
      rw [hgj]
      exact hout
    · rw [houtlen, List.length_set]
    · intro m hm
      rw [hbelow m (by omega), getD_set_ne _ _ _ _ _ (by omega)]
    · intro n hn
      cases n with
      | zero =>
        have hi_lt : i < acc.length := by omega
        have hb := hbelow i (by omega)
        simp only [Nat.add_zero]
        rw [hb, getD_set_self _ _ _ _ hi_lt]
        show g * ibm.getD i 1 = (getGlobalNodeTransformF r fuel j).getD 1 * ibm.getD i 1
        rw [hgj]
        rfl
      | succ m =>
        have hn' : m < rest.length := by
          simp at hn
          omega
        have ha := habove m hn'
        have hidx : i + (m + 1) = (i + 1) + m := by omega
        rw [hidx, ha]
        rfl

/-- C7: for a valid skin (in-range index, one inverse-bind matrix per joint)
whose joints' global-transform walks all terminate, `computeBoneMatrices`
produces, for every joint `i`, `boneMatrix[i] = globalTransform(jointNode_i) ·
inverseBindMatrix[i]` in exactly that order; with identity inverse-bind
matrices each result is exactly the joint's global transform. -/
theorem c7_bone_matrices (r : GLBRenderer) (fuel : Nat) (skinIndex : Int)
    (skin : Skin)
    (h0 : 0 ≤ skinIndex) (h1 : skinIndex < (r.skins.length : Int))
    (hskin : r.skins.getD skinIndex.toNat ⟨[], []⟩ = skin)
    (hibm : skin.inverseBindMatrices.length = skin.joints.length)
    (hglob : ∀ j ∈ skin.joints, (getGlobalNodeTransformF r fuel j).isSome) :
    ∃ out, computeBoneMatricesF r fuel skinIndex = some out ∧
      (∀ i, i < skin.joints.length →
        out.getD i 1
          = (getGlobalNodeTransformF r fuel (skin.joints.getD i 0)).getD 1
            * skin.inverseBindMatrices.getD i 1) ∧
      ((∀ i, i < skin.joints.length → skin.inverseBindMatrices.getD i 1 = 1) →
        ∀ i, i < skin.joints.length →
          out.getD i 1 = (getGlobalNodeTransformF r fuel (skin.joints.getD i 0)).getD 1) := by
  have hg : ¬ (skinIndex < 0 ∨ (r.skins.length : Int) ≤ skinIndex) := by omega
  have hstart : 0 + skin.joints.length
      ≤ (if r.boneMatrices.length < skin.joints.length
        then List.replicate skin.joints.length (0 : Mat4)
        else r.boneMatrices).length := by
    split_ifs with h
    · simp
    · simp
      omega
  obtain ⟨out, hout, _, _, habove⟩ := boneLoop_spec r fuel skin.inverseBindMatrices
    skin.joints 0
    (if r.boneMatrices.length < skin.joints.length
      then List.replicate skin.joints.length (0 : Mat4)
      else r.boneMatrices) hglob hstart
  refine ⟨out, ?_, ?_, ?_⟩
  · simp only [computeBoneMatricesF, if_neg hg, hskin]
    exact hout
  · intro i hi
    have h2 := habove i hi
    simpa using h2
  · intro hid i hi
    have h2 := habove i hi
    simp only [Nat.zero_add] at h2
    rw [h2, hid i hi, mul_one]

/-- Two-joint skin with identity inverse-bind matrices. -/
def skin7 : Skin := { joints := [0, 1], inverseBindMatrices := [1, 1] }

/-- Renderer holding `skin7` over two root nodes, with an empty bone-matrix
slice (forcing the reallocation path). -/
def r7 : GLBRenderer :=
  { emptyRenderer with
    nodeTransforms := [defaultTransform, movedTransform],
    baseTransforms := [defaultTransform, movedTransform],
    nodeParents := [-1, -1],
    skins := [skin7] }

/-- C7 witness: the bone-matrix theorem applied to the concrete two-joint
identity-inverse-bind skin `skin7` in `r7`. -/
theorem c7_witness :
    ∃ out, computeBoneMatricesF r7 5 0 = some out ∧
      (∀ i, i < skin7.joints.length →
        out.getD i 1
          = (getGlobalNodeTransformF r7 5 (skin7.joints.getD i 0)).getD 1
            * skin7.inverseBindMatrices.getD i 1) ∧
      ((∀ i, i < skin7.joints.length → skin7.inverseBindMatrices.getD i 1 = 1) →
        ∀ i, i < skin7.joints.length →
          out.getD i 1 = (getGlobalNodeTransformF r7 5 (skin7.joints.getD i 0)).getD 1) :=
  c7_bone_matrices r7 5 0 skin7 (by decide) (by decide) rfl rfl (by decide)

/-- The skin-loading step of `LoadGLB` (lines 267–296) for one glTF skin:
every joint index is copied (there is no capacity check and no error path in
this loop); with no inverse-bind accessor the matrices default to identity;
with accessor floats, slot `i` is filled from the 16 column-major floats at
`i*16` while `i*16+16` fits (the Go loop stops at the first `i` that does not
fit, which — the bound being monotone in `i` — leaves exactly the non-fitting
slots at their `make`-zero value; a failed accessor read, not needed by any
claim here, would leave the whole list empty). -/
def loadSkin (gltfJoints : List Nat) (ibmFloats : Option (List ℚ)) : Skin :=
  let joints : List Int := gltfJoints.map (fun j => (j : Int))
  let ibm : List Mat4 :=
    match ibmFloats with
    | some matrices =>
      (List.range joints.length).map (fun i =>
        if (i + 1) * 16 ≤ matrices.length then
          Matrix.of (fun row col : Fin 4 =>
            matrices.getD (i * 16 + ((col : Nat) * 4 + (row : Nat))) 0)
        else 0)
    | none => List.replicate joints.length (1 : Mat4)
  { joints := joints, inverseBindMatrices := ibm }

/-- The skins loop of `LoadGLB`: a total function — no document is rejected
for its skins. -/
def loadSkins (skins : List (List Nat × Option (List ℚ))) : List Skin :=
  skins.map (fun p => loadSkin p.1 p.2)

/-- The per-mesh joint-upload count of `Render` (lines 856–859):
`numJoints := len(Joints); if numJoints > 128 { numJoints = 128 }` — only the
first `numJoints` bone matrices are bound. -/
def renderNumJoints (skin : Skin) : Nat :=
  if 128 < skin.joints.length then 128 else skin.joints.length

set_option maxRecDepth 4000 in
/-- C3 (code-bug evidence): a document whose single skin lists 129 joints
loads without any error — the skin loop has no capacity validation — and at
render time only the first 128 bone matrices are bound: the 129-joint skin is
silently truncated, contradicting the claimed load-time `CapacityError`. -/
theorem c3_silent_truncation_at_129_joints :
    (loadSkins [(List.range 129, none)]).length = 1 ∧
      ((loadSkins [(List.range 129, none)]).getD 0 ⟨[], []⟩).joints.length = 129 ∧
      renderNumJoints ((loadSkins [(List.range 129, none)]).getD 0 ⟨[], []⟩) = 128 ∧
      renderNumJoints ((loadSkins [(List.range 129, none)]).getD 0 ⟨[], []⟩)
        < ((loadSkins [(List.range 129, none)]).getD 0 ⟨[], []⟩).joints.length := by
  refine ⟨rfl, ?_, ?_, ?_⟩ <;> decide

/-- The parent-pointer construction of `LoadGLB` (lines 217–226): every slot
starts at −1, then one pass over every node's child list stores the parent
index — with no cycle or self-reference check. -/
def buildNodeParents (nodesChildren : List (List Nat)) : List Int :=
  let init := List.replicate nodesChildren.length (-1 : Int)
  (nodesChildren.enum).foldl
    (fun acc pc => pc.2.foldl (fun a childIdx => a.set childIdx (pc.1 : Int)) acc)
    init

/-- Renderer loaded from a document whose node 0 lists itself as its own
child: hierarchy construction accepts it and records node 0 as its own
parent. -/
def cyclicRenderer : GLBRenderer :=
  { emptyRenderer with
    nodeTransforms := [defaultTransform],
    baseTransforms := [defaultTransform],
    nodeParents := buildNodeParents [[0]] }

/-- C4 (code-bug evidence): hierarchy construction performs no cycle
detection — the self-referential document builds parents `[0]` without any
error — and the parent walk of `getGlobalNodeTransform` on the cyclic node
fails to reach a root at every recursion depth: the Go recursion never
terminates (there is no `CycleError` anywhere in the pipeline). -/
theorem c4_cycle_undetected_walk_diverges :
    buildNodeParents [[0]] = [0] ∧
      ∀ fuel : Nat, getGlobalNodeTransformF cyclicRenderer fuel 0 = none := by
  refine ⟨by decide, ?_⟩
  have hstep : ∀ fuel : Nat, getGlobalNodeTransformF cyclicRenderer (fuel + 1) 0
      = (getGlobalNodeTransformF cyclicRenderer fuel 0).map
          (fun g => g * getNodeTransformMatrix cyclicRenderer 0) := fun _ => rfl
  intro fuel
  induction fuel with
  | zero => rfl
  | succ fuel ih => rw [hstep fuel, ih]; rfl

/-- Model of `UpdateTexture` from glb_renderer.go, lines 542–558.  The GL texture
object is modelled by `textureWidth`, `textureHeight` and `lastUpload`: an
empty buffer is a no-op, differing dimensions reallocate (`TexImage2D`), and
`TexSubImage2D` uploads the buffer.  The `stride` parameter is accepted and —
exactly as in the Go code — never used. -/
def updateTexture (r : GLBRenderer) (buffer : List Nat)
    (width height stride : Int) : GLBRenderer :=
  if buffer.length = 0 then r
  else
    let r' := if r.textureWidth ≠ width ∨ r.textureHeight ≠ height
      then { r with textureWidth := width, textureHeight := height }
      else r
    { r' with lastUpload := some buffer }

/-- Modelled GL semantics of the `TexSubImage2D` call: under the GL default
pixel-unpack state (`GL_UNPACK_ROW_LENGTH = 0`; RGBA rows are 4-byte
aligned), row `row` of a `width`-pixel upload is read from the packed byte
range `[row*width*4, row*width*4 + width*4)` of the client buffer — the
upload never sees any caller-side stride. -/
def glRowBytes (upload : List Nat) (width row : Nat) : List Nat :=
  listSlice upload (row * (width * 4)) (width * 4)

/-- The pixel rows held by the texture after the last upload. -/
def uploadedRows (r : GLBRenderer) : List (List Nat) :=
  match r.lastUpload with
  | none => []
  | some b => (List.range r.textureHeight.toNat).map (glRowBytes b r.textureWidth.toNat)

/-- Sixteen bytes: two stride-8 rows of a width-1 RGBA image. -/
def buf16 : List Nat := [0, 1, 2, 3, 4, 5, 6, 7, 8, 9, 10, 11, 12, 13, 14, 15]

/-- C5 counterexample: uploading a width-1, height-2 image from `buf16` with
`strideBytes = 8 > width*4 = 4` reads row 1 at the packed offset 4 (bytes
[4,5,6,7]), not at the caller's stride offset 8 (bytes [8,9,10,11]): the
claimed stride honoring is false. -/
theorem c5_claim_counterexample :
    uploadedRows (updateTexture emptyRenderer buf16 1 2 8)
        = [[0, 1, 2, 3], [4, 5, 6, 7]] ∧
      [4, 5, 6, 7] ≠ listSlice buf16 (1 * 8) 4 := by
  exact ⟨by decide, by decide⟩

/-- C5 (amended): `updateTexture` ignores its `strideBytes` argument
entirely — the resulting state is identical for any two stride values — and on
a non-empty buffer the uploaded rows are read packed at `width*4` bytes per
row, never at the caller's stride. -/
theorem c5_amended_stride_ignored (r : GLBRenderer) (buffer : List Nat)
    (width height s1 s2 : Int) :
    updateTexture r buffer width height s1 = updateTexture r buffer width height s2 ∧
    (buffer.length ≠ 0 →
      uploadedRows (updateTexture r buffer width height s1)
        = (List.range height.toNat).map
            (fun row => listSlice buffer (row * (width.toNat * 4)) (width.toNat * 4))) := by
  constructor
  · rfl
  · intro hb
    unfold updateTexture
    rw [if_neg hb]
    by_cases hd : (r.textureWidth ≠ width ∨ r.textureHeight ≠ height)
    · rw [if_pos hd]
      rfl
    · rw [if_neg hd]
      push_neg at hd
      obtain ⟨hw, hh⟩ := hd
      show (List.range r.textureHeight.toNat).map (glRowBytes buffer r.textureWidth.toNat)
        = _
      rw [hw, hh]
      rfl

/-- C5 witness: the amended theorem applied to `buf16` with two different
stride values (8 and 99) on a width-1, height-2 upload. -/
theorem c5_amended_witness :
    updateTexture emptyRenderer buf16 1 2 8 = updateTexture emptyRenderer buf16 1 2 99 ∧
      uploadedRows (updateTexture emptyRenderer buf16 1 2 8)
        = (List.range (2 : Int).toNat).map
            (fun row => listSlice buf16 (row * ((1 : Int).toNat * 4)) ((1 : Int).toNat * 4)) :=
  ⟨(c5_amended_stride_ignored emptyRenderer buf16 1 2 8 99).1,
   (c5_amended_stride_ignored emptyRenderer buf16 1 2 8 99).2 (by decide)⟩
